import Mathlib

/-!
Verification of the warranty failure-forecasting application (src/app.py).

The development shallowly embeds the three core stages of the script:
the lifetime dataset builder (failure records, censored records, the
combined dataset handed to fitting), and the cohort forecast engine.
CSV rows become Lean structures; pandas Timestamps become a `Date`
structure with the civil-calendar day-number used by Timestamp
subtraction; possibly-missing dates (NaT) become `Option Date`; the
fitted model's cumulative distribution function, produced by the
external estimation library, is abstracted as a function `cdf : ℕ → ℚ`
since the forecast engine only evaluates it at whole-day times.
-/

/-- A calendar date (a pandas Timestamp at midnight): year, month (1-12), day. -/
structure Date where
  year : ℤ
  month : ℕ
  day : ℕ
deriving DecidableEq

/-- Gregorian leap-year rule. -/
def isLeap (y : ℤ) : Bool :=
  (y % 4 == 0 && y % 100 != 0) || (y % 400 == 0)

/-- Number of days in month m of year y. -/
def daysInMonth (y : ℤ) (m : ℕ) : ℕ :=
  if m = 2 then (if isLeap y then 29 else 28)
  else if m = 4 ∨ m = 6 ∨ m = 9 ∨ m = 11 then 30
  else 31

/-- Calendar-month addition with day-of-month clamping, the semantics of
`cohort_date + pd.DateOffset(months=n)` on line 118 of src/app.py. -/
def addMonths (d : Date) (n : ℕ) : Date :=
  let t : ℤ := (d.month : ℤ) - 1 + n
  let y : ℤ := d.year + t.fdiv 12
  let m : ℕ := (t.emod 12).toNat + 1
  ⟨y, m, min d.day (daysInMonth y m)⟩

/-- Day number of a date (days since 1970-01-01), the civil-calendar value by
which pandas Timestamp subtraction measures whole days (line 72 of src/app.py). -/
def toRataDie (d : Date) : ℤ :=
  let y : ℤ := if d.month ≤ 2 then d.year - 1 else d.year
  let era : ℤ := y.fdiv 400
  let yoe : ℤ := y - era * 400
  let mp : ℤ := ((d.month : ℤ) + 9) % 12
  let doy : ℤ := (153 * mp + 2).fdiv 5 + (d.day : ℤ) - 1
  let doe : ℤ := yoe * 365 + yoe.fdiv 4 - yoe.fdiv 100 + doy
  era * 146097 + doe - 719468

/-- One row of the uploaded sales CSV: an installation cohort.  The date is
optional because pandas represents an unparseable date as NaT. -/
structure SalesRow where
  date_in_service : Option Date
  quantity_in_service : ℤ
deriving DecidableEq

/-- One row of the uploaded returns CSV. -/
structure ReturnRow where
  date_in_service : Option Date
  date_of_return : Option Date
  quantity_returned : ℤ
deriving DecidableEq

/-- One element of failure_records / censored_records (lines 30-34 and 46-50
of src/app.py): event_observed is the literal 1 or 0 the script stores. -/
structure LifetimeRecord where
  in_service : Option Date
  event_date : Option Date
  event_observed : ℕ
deriving DecidableEq

/-- One row of lifetime_df after the duration column is added (line 72). -/
structure FitRow where
  in_service : Option Date
  event_date : Option Date
  event_observed : ℕ
  duration : Option ℤ
deriving DecidableEq

/-- One row of the forecast output (lines 119-123 of src/app.py). -/
structure ForecastRow where
  cohort_in_service : Option Date
  forecast_month : Option Date
  expected_failures : ℚ
deriving DecidableEq

/-- pandas equality on possibly-missing dates: any comparison with NaT is False. -/
def pdEq (x y : Option Date) : Bool :=
  match x, y with
  | some a, some b => decide (a = b)
  | _, _ => false

/-- The hardcoded censoring cutoff `pd.to_datetime("2011-09-01")` (line 38 of
src/app.py).  It is a module-level constant, not an input. -/
def cutoff_date : Date := ⟨2011, 9, 1⟩

/-- Lines 27-35 of src/app.py: one observed-failure record per returned unit.
Python's `for _ in range(n)` iterates zero times when n is not positive,
which `Int.toNat` reproduces. -/
def failure_records (returns_data : List ReturnRow) : List LifetimeRecord :=
  returns_data.flatMap fun row =>
    List.replicate row.quantity_returned.toNat ⟨row.date_in_service, row.date_of_return, 1⟩

/-- Line 43 of src/app.py: total quantity returned over the return rows whose
date_in_service equals d under pandas comparison. -/
def total_returned (returns_data : List ReturnRow) (d : Option Date) : ℤ :=
  ((returns_data.filter fun r => pdEq r.date_in_service d).map fun r => r.quantity_returned).sum

/-- Lines 41-51 of src/app.py: for each sales row, `quantity_in_service`
minus the matching returns many censored records, each dated at the
hardcoded cutoff.  A non-positive count emits no records (Python range). -/
def censored_records (sales_data : List SalesRow) (returns_data : List ReturnRow) :
    List LifetimeRecord :=
  sales_data.flatMap fun row =>
    List.replicate (row.quantity_in_service - total_returned returns_data row.date_in_service).toNat
      ⟨row.date_in_service, some cutoff_date, 0⟩

/-- Line 72 of src/app.py: the duration column, in whole days; NaT minus
anything (or anything minus NaT) is NaN, embedded as `none`. -/
def duration_of (r : LifetimeRecord) : Option ℤ :=
  match r.event_date, r.in_service with
  | some e, some s => some (toRataDie e - toRataDie s)
  | _, _ => none

/-- Lines 54-73 of src/app.py: concatenate failures and censored records, add
the duration column, and drop rows whose event_date or duration is missing. -/
def lifetime_df (sales_data : List SalesRow) (returns_data : List ReturnRow) : List FitRow :=
  ((failure_records returns_data ++ censored_records sales_data returns_data).map
      fun r => FitRow.mk r.in_service r.event_date r.event_observed (duration_of r)).filter
    fun r => r.event_date.isSome && r.duration.isSome

/-- Lines 111-123 of src/app.py: the inner month loop of
forecast_failures_by_cohort for a single sales row. -/
def cohort_forecast_rows (cdf : ℕ → ℚ) (months_ahead : ℕ) (row : SalesRow) : List ForecastRow :=
  (List.range months_ahead).map fun j =>
    let month := j + 1
    let t1 := (month - 1) * 30
    let t2 := month * 30
    let prob : ℚ := max (cdf t2 - cdf t1) 0
    ⟨row.date_in_service, row.date_in_service.map (fun d => addMonths d month),
      (row.quantity_in_service : ℚ) * prob⟩

/-- Lines 106-124 of src/app.py.  The fitted model's
`cumulative_density_at_times` is the abstract `cdf` argument. -/
def forecast_failures_by_cohort (cdf : ℕ → ℚ) (sales_df : List SalesRow) (months_ahead : ℕ) :
    List ForecastRow :=
  sales_df.flatMap (cohort_forecast_rows cdf months_ahead)

/-- Lines 126-131 of src/app.py: when a future sales table is uploaded, the
script forecasts it with the same months_ahead value and concatenates. -/
def combined_forecast (cdf : ℕ → ℚ) (sales future : List SalesRow) (months_ahead : ℕ) :
    List ForecastRow :=
  forecast_failures_by_cohort cdf sales months_ahead ++
    forecast_failures_by_cohort cdf future months_ahead

/-- Follows the spec's words, for comparison with `combined_forecast` (claim
C8): the future table is forecast with an independently supplied horizon,
then concatenated after the historical forecasts. -/
def combined_forecast_independent (cdf : ℕ → ℚ) (sales future : List SalesRow)
    (horizon_hist horizon_future : ℕ) : List ForecastRow :=
  forecast_failures_by_cohort cdf sales horizon_hist ++
    forecast_failures_by_cohort cdf future horizon_future

/-- Number of observed-failure records the builder emits whose in_service
date matches d under pandas comparison. -/
def observed_count_for (returns_data : List ReturnRow) (d : Option Date) : ℕ :=
  ((failure_records returns_data).filter fun rec => pdEq rec.in_service d).length

/-- Number of censored records the builder emits whose in_service date
matches d under pandas comparison. -/
def censored_count_for (sales_data : List SalesRow) (returns_data : List ReturnRow)
    (d : Option Date) : ℕ :=
  ((censored_records sales_data returns_data).filter fun rec => pdEq rec.in_service d).length

/-- A concrete step CDF used to instantiate theorems: 0 at time 0 and 1
afterwards.  Monotone and bounded by 1, like any true CDF. -/
def cdfStep : ℕ → ℚ := fun t => if t = 0 then 0 else 1

theorem cdfStep_mono : ∀ a b : ℕ, a ≤ b → cdfStep a ≤ cdfStep b := by
  intro a b hab
  by_cases ha : a = 0 <;> by_cases hb : b = 0 <;> simp [cdfStep, ha, hb]
  omega

theorem cdfStep_le_one : ∀ t : ℕ, cdfStep t ≤ 1 := by
  intro t
  by_cases ht : t = 0 <;> simp [cdfStep, ht]

/-! Helper lemmas. -/

theorem length_flatMap_uniform {α β : Type} (l : List α) (f : α → List β) (H : ℕ)
    (hf : ∀ a ∈ l, (f a).length = H) : (l.flatMap f).length = l.length * H := by
  induction l with
  | nil => simp
  | cons x xs ih =>
    rw [List.flatMap_cons, List.length_append, List.length_cons,
      hf x (List.mem_cons_self x xs), ih (fun a ha => hf a (List.mem_cons_of_mem x ha))]
    ring

theorem getElem?_flatMap_uniform {α β : Type} (l : List α) (f : α → List β) (H : ℕ)
    (hf : ∀ a ∈ l, (f a).length = H) (i k : ℕ) (row : α)
    (hrow : l[i]? = some row) (hk : k < H) :
    (l.flatMap f)[i * H + k]? = (f row)[k]? := by
  induction l generalizing i with
  | nil => simp at hrow
  | cons x xs ih =>
    have hx : (f x).length = H := hf x (List.mem_cons_self x xs)
    cases i with
    | zero =>
      have hx0 : x = row := by simpa using hrow
      subst hx0
      rw [List.flatMap_cons, Nat.zero_mul, Nat.zero_add,
        List.getElem?_append_left (by omega)]
    | succ i =>
      rw [List.flatMap_cons, List.getElem?_append_right (by nlinarith [Nat.succ_mul i H])]
      have harith : (i + 1) * H + k - (f x).length = i * H + k := by
        rw [hx]; rw [Nat.succ_mul]; omega
      rw [harith]
      exact ih (fun a ha => hf a (List.mem_cons_of_mem x ha)) i (by simpa using hrow)

theorem sum_toNat_cast (l : List ℤ) (h : ∀ x ∈ l, 0 ≤ x) :
    (((l.map Int.toNat).sum : ℕ) : ℤ) = l.sum := by
  induction l with
  | nil => simp
  | cons x xs ih =>
    simp only [List.map_cons, List.sum_cons, Nat.cast_add]
    rw [Int.toNat_of_nonneg (h x (List.mem_cons_self x xs)),
      ih (fun y hy => h y (List.mem_cons_of_mem x hy))]

/-- The observed-failure count the builder emits for a date equals the sum of
the clamped quantities over the return rows matching that date. -/
theorem observed_count_formula (returns_data : List ReturnRow) (d : Option Date) :
    observed_count_for returns_data d =
      ((returns_data.filter fun r => pdEq r.date_in_service d).map
        fun r => r.quantity_returned.toNat).sum := by
  induction returns_data with
  | nil => rfl
  | cons r rs ih =>
    simp only [observed_count_for, failure_records, List.flatMap_cons, List.filter_append,
      List.length_append, List.filter_cons] at *
    rw [List.filter_replicate]
    by_cases h : pdEq r.date_in_service d = true
    · simp only [h, if_true, List.length_replicate, List.map_cons, List.sum_cons, ih]
    · simp only [h, if_false, List.length_nil, Nat.zero_add, ih]
      simp [h]

/-- The censored count the builder emits for a date equals the sum of the
clamped subtraction over the sales rows matching that date. -/
theorem censored_count_formula (sales_data : List SalesRow) (returns_data : List ReturnRow)
    (d : Option Date) :
    censored_count_for sales_data returns_data d =
      ((sales_data.filter fun s => pdEq s.date_in_service d).map
        fun s => (s.quantity_in_service - total_returned returns_data s.date_in_service).toNat).sum := by
  induction sales_data with
  | nil => rfl
  | cons s ss ih =>
    simp only [censored_count_for, censored_records, List.flatMap_cons, List.filter_append,
      List.length_append, List.filter_cons] at *
    rw [List.filter_replicate]
    by_cases h : pdEq s.date_in_service d = true
    · simp only [h, if_true, List.length_replicate, List.map_cons, List.sum_cons, ih]
    · simp only [h, if_false, List.length_nil, Nat.zero_add, ih]
      simp [h]

/-- Bucket probabilities telescope: under a monotone cdf the sum over the
first H months of the clamped differences is cdf(30 H) - cdf(0). -/
theorem telescope_sum (cdf : ℕ → ℚ) (hmono : ∀ a b : ℕ, a ≤ b → cdf a ≤ cdf b) (H : ℕ) :
    ((List.range H).map fun j => max (cdf ((j + 1) * 30) - cdf (j * 30)) 0).sum =
      cdf (H * 30) - cdf 0 := by
  induction H with
  | zero => simp
  | succ n ih =>
    rw [List.range_succ, List.map_append, List.sum_append, ih]
    have hstep : cdf (n * 30) ≤ cdf ((n + 1) * 30) := hmono _ _ (by omega)
    simp only [List.map_cons, List.map_nil, List.sum_cons, List.sum_nil]
    rw [max_eq_left (sub_nonneg.mpr hstep)]
    ring

/-! Claim C1. -/

/-- Claim C1: for every cohort row (found at index i of the sales table) and
every month index m in [1, months_ahead], the forecast engine emits exactly
one record, located at position i * months_ahead + (m - 1) of its output,
whose expected_failures equals units * max(cdf(m*30) - cdf((m-1)*30), 0) and
whose forecast_month is the cohort's in-service date plus m calendar months;
the output has exactly months_ahead records per cohort row. -/
theorem forecast_rows_per_cohort (cdf : ℕ → ℚ) (sales_df : List SalesRow)
    (months_ahead i m : ℕ) (row : SalesRow) (hrow : sales_df[i]? = some row)
    (hm1 : 1 ≤ m) (hm2 : m ≤ months_ahead) :
    (forecast_failures_by_cohort cdf sales_df months_ahead).length =
      sales_df.length * months_ahead ∧
    (forecast_failures_by_cohort cdf sales_df months_ahead)[i * months_ahead + (m - 1)]? =
      some ⟨row.date_in_service, row.date_in_service.map (fun d => addMonths d m),
        (row.quantity_in_service : ℚ) * max (cdf (m * 30) - cdf ((m - 1) * 30)) 0⟩ := by
  have hlen : ∀ a ∈ sales_df, (cohort_forecast_rows cdf months_ahead a).length = months_ahead := by
    intro a _
    simp [cohort_forecast_rows]
  constructor
  · exact length_flatMap_uniform _ _ _ hlen
  · rw [forecast_failures_by_cohort,
      getElem?_flatMap_uniform _ _ _ hlen i (m - 1) row hrow (by omega)]
    unfold cohort_forecast_rows
    rw [List.getElem?_map, List.getElem?_range (by omega)]
    have hm : m - 1 + 1 = m := by omega
    simp [hm]

/-- Witness for claim C1 at a concrete input: one cohort of 10 units installed
2024-01-15, horizon 2 months, month index 1. -/
theorem forecast_rows_per_cohort_witness :
    (forecast_failures_by_cohort cdfStep [⟨some ⟨2024, 1, 15⟩, 10⟩] 2).length = 1 * 2 ∧
    (forecast_failures_by_cohort cdfStep [⟨some ⟨2024, 1, 15⟩, 10⟩] 2)[0 * 2 + (1 - 1)]? =
      some ⟨some ⟨2024, 1, 15⟩, (some ⟨2024, 1, 15⟩ : Option Date).map (fun d => addMonths d 1),
        ((10 : ℤ) : ℚ) * max (cdfStep (1 * 30) - cdfStep ((1 - 1) * 30)) 0⟩ :=
  forecast_rows_per_cohort cdfStep [⟨some ⟨2024, 1, 15⟩, 10⟩] 2 0 1 ⟨some ⟨2024, 1, 15⟩, 10⟩
    rfl (by omega) (by omega)

/-! Claim C5. -/

/-- Claim C5: with a monotone cdf bounded between 0 and 1 and a cohort of
non-negative unit count, every forecast record of that cohort satisfies
0 ≤ expected_failures ≤ units, and the sum of expected_failures over all
forecast months of the cohort is at most units (the bucket probabilities
telescope to a cdf difference bounded by 1). -/
theorem forecast_expected_bounds (cdf : ℕ → ℚ)
    (hmono : ∀ a b : ℕ, a ≤ b → cdf a ≤ cdf b)
    (h0 : 0 ≤ cdf 0) (h1 : ∀ t, cdf t ≤ 1)
    (row : SalesRow) (hu : 0 ≤ row.quantity_in_service) (months_ahead : ℕ) :
    (∀ fr ∈ cohort_forecast_rows cdf months_ahead row,
        0 ≤ fr.expected_failures ∧ fr.expected_failures ≤ (row.quantity_in_service : ℚ)) ∧
    ((cohort_forecast_rows cdf months_ahead row).map ForecastRow.expected_failures).sum ≤
      (row.quantity_in_service : ℚ) := by
  have hu2 : (0 : ℚ) ≤ (row.quantity_in_service : ℚ) := by exact_mod_cast hu
  have hnonneg : ∀ t, (0 : ℚ) ≤ cdf t := fun t => le_trans h0 (hmono 0 t (Nat.zero_le t))
  have hprob : ∀ a b : ℕ, 0 ≤ max (cdf b - cdf a) 0 ∧ max (cdf b - cdf a) 0 ≤ 1 := by
    intro a b
    refine ⟨le_max_right _ _, max_le ?_ (by norm_num)⟩
    have hb := h1 b
    have ha := hnonneg a
    linarith
  constructor
  · intro fr hfr
    unfold cohort_forecast_rows at hfr
    rw [List.mem_map] at hfr
    obtain ⟨j, hj, rfl⟩ := hfr
    exact ⟨mul_nonneg hu2 (hprob _ _).1, mul_le_of_le_one_right hu2 (hprob _ _).2⟩
  · have hmap : ((cohort_forecast_rows cdf months_ahead row).map ForecastRow.expected_failures) =
        (List.range months_ahead).map
          (fun j => (row.quantity_in_service : ℚ) * max (cdf ((j + 1) * 30) - cdf (j * 30)) 0) := by
      simp [cohort_forecast_rows, List.map_map, Function.comp]
    rw [hmap, List.sum_map_mul_left, telescope_sum cdf hmono]
    have hle1 : cdf (months_ahead * 30) - cdf 0 ≤ 1 := by
      have := h1 (months_ahead * 30)
      linarith
    calc (row.quantity_in_service : ℚ) * (cdf (months_ahead * 30) - cdf 0)
        ≤ (row.quantity_in_service : ℚ) * 1 := mul_le_mul_of_nonneg_left hle1 hu2
      _ = (row.quantity_in_service : ℚ) := mul_one _

/-- Witness for claim C5: a concrete cohort of 10 units, horizon 3, under the
concrete step cdf. -/
theorem forecast_expected_bounds_witness :
    (∀ fr ∈ cohort_forecast_rows cdfStep 3 ⟨some ⟨2024, 1, 15⟩, 10⟩,
        0 ≤ fr.expected_failures ∧ fr.expected_failures ≤ ((10 : ℤ) : ℚ)) ∧
    ((cohort_forecast_rows cdfStep 3 ⟨some ⟨2024, 1, 15⟩, 10⟩).map
        ForecastRow.expected_failures).sum ≤ ((10 : ℤ) : ℚ) :=
  forecast_expected_bounds cdfStep cdfStep_mono (by norm_num [cdfStep]) cdfStep_le_one
    ⟨some ⟨2024, 1, 15⟩, 10⟩ (by norm_num) 3

/-! Claim C8. -/

/-- Claim C8 counterexample: the future horizon is not independently supplied.
With the single horizon value 1 that the script passes to both calls, the
combined output agrees with the spec-worded two-horizon procedure only at
equal horizons, and disagrees with the run whose future horizon is the
distinct value 2 (the outputs do not even have the same length). -/
theorem future_horizon_not_independent :
    combined_forecast cdfStep [⟨some ⟨2024, 1, 15⟩, 10⟩] [⟨some ⟨2024, 1, 15⟩, 10⟩] 1 =
      combined_forecast_independent cdfStep [⟨some ⟨2024, 1, 15⟩, 10⟩]
        [⟨some ⟨2024, 1, 15⟩, 10⟩] 1 1 ∧
    combined_forecast cdfStep [⟨some ⟨2024, 1, 15⟩, 10⟩] [⟨some ⟨2024, 1, 15⟩, 10⟩] 1 ≠
      combined_forecast_independent cdfStep [⟨some ⟨2024, 1, 15⟩, 10⟩]
        [⟨some ⟨2024, 1, 15⟩, 10⟩] 1 2 := by
  refine ⟨rfl, fun hcontra => ?_⟩
  have hlen := congrArg List.length hcontra
  simp [combined_forecast, combined_forecast_independent, forecast_failures_by_cohort,
    cohort_forecast_rows] at hlen

/-- Claim C8 (amended): the future table is run through the identical
per-cohort procedure but with the same horizon as the historical table, and
the final output is the concatenation historical forecasts ++ future
forecasts. -/
theorem combined_forecast_same_horizon (cdf : ℕ → ℚ) (sales future : List SalesRow) (h : ℕ) :
    combined_forecast cdf sales future h = combined_forecast_independent cdf sales future h h ∧
    (combined_forecast cdf sales future h).take (sales.length * h) =
      forecast_failures_by_cohort cdf sales h ∧
    (combined_forecast cdf sales future h).drop (sales.length * h) =
      forecast_failures_by_cohort cdf future h := by
  have hlen : (forecast_failures_by_cohort cdf sales h).length = sales.length * h :=
    length_flatMap_uniform _ _ _ (fun a _ => by simp [cohort_forecast_rows])
  refine ⟨rfl, ?_, ?_⟩
  · rw [combined_forecast, ← hlen, List.take_left]
  · rw [combined_forecast, ← hlen, List.drop_left]

/-! Claim C2. -/

/-- Claim C2: for an installation cohort appearing as exactly one sales row,
with non-negative return quantities and total matching returns not exceeding
the units installed, the builder's output satisfies
observed_failures_for_cohort + censored_count_for_cohort = units_installed. -/
theorem cohort_accounting (sales_data : List SalesRow) (returns_data : List ReturnRow)
    (row : SalesRow) (d : Date) (hd : row.date_in_service = some d)
    (hunique : sales_data.filter (fun s => pdEq s.date_in_service (some d)) = [row])
    (hq : ∀ r ∈ returns_data, 0 ≤ r.quantity_returned)
    (hcons : total_returned returns_data (some d) ≤ row.quantity_in_service) :
    (observed_count_for returns_data (some d) : ℤ) +
      (censored_count_for sales_data returns_data (some d) : ℤ) = row.quantity_in_service := by
  have hobs : (observed_count_for returns_data (some d) : ℤ) =
      total_returned returns_data (some d) := by
    rw [observed_count_formula]
    have hmm : ((returns_data.filter fun r => pdEq r.date_in_service (some d)).map
        fun r => r.quantity_returned.toNat) =
        ((returns_data.filter fun r => pdEq r.date_in_service (some d)).map
          fun r => r.quantity_returned).map Int.toNat := by
      rw [List.map_map]
      rfl
    rw [hmm, sum_toNat_cast]
    · rfl
    · intro x hx
      rw [List.mem_map] at hx
      obtain ⟨r, hr, rfl⟩ := hx
      exact hq r (List.mem_of_mem_filter hr)
  have hcens : (censored_count_for sales_data returns_data (some d) : ℤ) =
      row.quantity_in_service - total_returned returns_data (some d) := by
    rw [censored_count_formula, hunique]
    simp only [List.map_cons, List.map_nil, List.sum_cons, List.sum_nil, Nat.add_zero]
    rw [hd]
    exact Int.toNat_of_nonneg (by omega)
  rw [hobs, hcens]
  ring

/-- Witness for claim C2: one cohort of 10 units installed 2020-01-01 with 4
returns against it; observed 4 plus censored 6 equals 10. -/
theorem cohort_accounting_witness :
    (observed_count_for [⟨some ⟨2020, 1, 1⟩, some ⟨2020, 3, 1⟩, 4⟩] (some ⟨2020, 1, 1⟩) : ℤ) +
      (censored_count_for [⟨some ⟨2020, 1, 1⟩, 10⟩]
        [⟨some ⟨2020, 1, 1⟩, some ⟨2020, 3, 1⟩, 4⟩] (some ⟨2020, 1, 1⟩) : ℤ) = 10 :=
  cohort_accounting [⟨some ⟨2020, 1, 1⟩, 10⟩] [⟨some ⟨2020, 1, 1⟩, some ⟨2020, 3, 1⟩, 4⟩]
    ⟨some ⟨2020, 1, 1⟩, 10⟩ ⟨2020, 1, 1⟩ rfl (by decide) (by decide) (by decide)

/-! Claim C3. -/

/-- Claim C3 counterexample: a cohort of 3 units with 5 returns against it.
The claim says the builder raises DataConsistencyError; instead the code
completes normally and silently emits zero censored records for the cohort
(the Python range over the negative count -2 is empty). -/
theorem excess_returns_no_error :
    censored_records [⟨some ⟨2010, 1, 1⟩, 3⟩] [⟨some ⟨2010, 1, 1⟩, some ⟨2010, 6, 1⟩, 5⟩] = [] ∧
    total_returned [⟨some ⟨2010, 1, 1⟩, some ⟨2010, 6, 1⟩, 5⟩] (some ⟨2010, 1, 1⟩) = 5 ∧
    (3 : ℤ) < 5 := by decide

/-- Claim C3 (amended): the builder raises no error; for a cohort appearing
as exactly one sales row the number of censored records emitted equals
max(units_installed - total matching returns, 0), so when returns exceed the
units installed the count is silently clamped to zero rather than reported. -/
theorem censored_count_clamped (sales_data : List SalesRow) (returns_data : List ReturnRow)
    (row : SalesRow) (d : Date) (hd : row.date_in_service = some d)
    (hunique : sales_data.filter (fun s => pdEq s.date_in_service (some d)) = [row]) :
    (censored_count_for sales_data returns_data (some d) : ℤ) =
      max (row.quantity_in_service - total_returned returns_data (some d)) 0 := by
  rw [censored_count_formula, hunique]
  simp only [List.map_cons, List.map_nil, List.sum_cons, List.sum_nil, Nat.add_zero]
  rw [hd]
  exact Int.toNat_eq_max _

/-- Witness for the amended claim C3 at the inconsistent input: 3 units, 5
returns, clamped censored count max(3 - 5, 0) = 0. -/
theorem censored_count_clamped_witness :
    (censored_count_for [⟨some ⟨2010, 1, 1⟩, 3⟩]
        [⟨some ⟨2010, 1, 1⟩, some ⟨2010, 6, 1⟩, 5⟩] (some ⟨2010, 1, 1⟩) : ℤ) =
      max ((3 : ℤ) -
        total_returned [⟨some ⟨2010, 1, 1⟩, some ⟨2010, 6, 1⟩, 5⟩] (some ⟨2010, 1, 1⟩)) 0 :=
  censored_count_clamped [⟨some ⟨2010, 1, 1⟩, 3⟩] [⟨some ⟨2010, 1, 1⟩, some ⟨2010, 6, 1⟩, 5⟩]
    ⟨some ⟨2010, 1, 1⟩, 3⟩ ⟨2010, 1, 1⟩ rfl (by decide)

/-! Claim C6. -/

/-- Claim C6 counterexample: a return dated 2020-04-01 against an
installation dated 2020-05-01 produces a duration of -30 days, and the row
is NOT excluded from the fitting dataset — line 73 of src/app.py drops only
rows with a missing event_date or duration, never negative durations. -/
theorem negative_duration_not_excluded :
    lifetime_df [] [⟨some ⟨2020, 5, 1⟩, some ⟨2020, 4, 1⟩, 1⟩] =
      [⟨some ⟨2020, 5, 1⟩, some ⟨2020, 4, 1⟩, 1, some (-30)⟩] ∧ (-30 : ℤ) < 0 := by
  decide

/-- Claim C6 (amended): every observation reaching fitting has both dates
present and its duration equal to event_date minus in_service_date in whole
days; records with a missing date (hence an undefined duration) are excluded
and never coerced to zero.  Negative durations, however, are not excluded,
and the exclusions are not counted. -/
theorem lifetime_rows_parsed_duration (sales_data : List SalesRow) (returns_data : List ReturnRow)
    (fr : FitRow) (h : fr ∈ lifetime_df sales_data returns_data) :
    ∃ e s, fr.event_date = some e ∧ fr.in_service = some s ∧
      fr.duration = some (toRataDie e - toRataDie s) := by
  unfold lifetime_df at h
  rw [List.mem_filter] at h
  obtain ⟨hmem, hkeep⟩ := h
  rw [List.mem_map] at hmem
  obtain ⟨r, hr, rfl⟩ := hmem
  cases he : r.event_date with
  | none => simp [duration_of, he] at hkeep
  | some e =>
    cases hs : r.in_service with
    | none => simp [duration_of, he, hs] at hkeep
    | some s =>
      exact ⟨e, s, rfl, rfl, by simp [duration_of, he, hs]⟩

/-- Witness for the amended claim C6: a well-formed return of 2020-02-01
against installation 2020-01-01 reaches fitting with duration 31 days. -/
theorem lifetime_rows_parsed_duration_witness :
    ∃ e s, (FitRow.mk (some ⟨2020, 1, 1⟩) (some ⟨2020, 2, 1⟩) 1 (some 31)).event_date = some e ∧
      (FitRow.mk (some ⟨2020, 1, 1⟩) (some ⟨2020, 2, 1⟩) 1 (some 31)).in_service = some s ∧
      (FitRow.mk (some ⟨2020, 1, 1⟩) (some ⟨2020, 2, 1⟩) 1 (some 31)).duration =
        some (toRataDie e - toRataDie s) :=
  lifetime_rows_parsed_duration [] [⟨some ⟨2020, 1, 1⟩, some ⟨2020, 2, 1⟩, 1⟩]
    (FitRow.mk (some ⟨2020, 1, 1⟩) (some ⟨2020, 2, 1⟩) 1 (some 31)) (by decide)

/-! Claim C7. -/

/-- Claim C7 counterexample: nothing supplies a cutoff — on an input whose
only date is 2020-01-01 the builder's censored records carry event_date
2011-09-01, a hardcoded constant matching nothing in the input and not
derivable from it. -/
theorem cutoff_not_supplied :
    censored_records [⟨some ⟨2020, 1, 1⟩, 2⟩] [] =
      [⟨some ⟨2020, 1, 1⟩, some ⟨2011, 9, 1⟩, 0⟩, ⟨some ⟨2020, 1, 1⟩, some ⟨2011, 9, 1⟩, 0⟩] ∧
    (⟨2011, 9, 1⟩ : Date) ≠ ⟨2020, 1, 1⟩ := by
  decide

/-- Claim C7 (amended): the censoring cutoff is the hardcoded module
constant 2011-09-01, not a caller-supplied parameter and not derived from
the data or from the current time; every censored observation the builder
emits has event_date equal to that constant and event_observed = 0.
Determinism holds trivially: the builder is a pure function of the two
input tables. -/
theorem censored_event_date_constant (sales_data : List SalesRow) (returns_data : List ReturnRow)
    (rec : LifetimeRecord) (h : rec ∈ censored_records sales_data returns_data) :
    rec.event_date = some cutoff_date ∧ rec.event_observed = 0 ∧ cutoff_date = ⟨2011, 9, 1⟩ := by
  unfold censored_records at h
  rw [List.mem_flatMap] at h
  obtain ⟨row, hrow, hrec⟩ := h
  have hval := List.eq_of_mem_replicate hrec
  subst hval
  exact ⟨rfl, rfl, rfl⟩

/-- Witness for the amended claim C7 at a concrete input. -/
theorem censored_event_date_constant_witness :
    (LifetimeRecord.mk (some ⟨2020, 1, 1⟩) (some cutoff_date) 0).event_date = some cutoff_date ∧
    (LifetimeRecord.mk (some ⟨2020, 1, 1⟩) (some cutoff_date) 0).event_observed = 0 ∧
    cutoff_date = ⟨2011, 9, 1⟩ :=
  censored_event_date_constant [⟨some ⟨2020, 1, 1⟩, 2⟩] []
    (LifetimeRecord.mk (some ⟨2020, 1, 1⟩) (some cutoff_date) 0) (by decide)

/-! Claim C9. -/

/-- Claim C9 counterexample: no InvalidForecastRequestError exists in the
code.  With a cohort of -5 units and horizon 1 the engine returns a full
forecast record whose expected_failures is negative instead of raising, and
with horizon 0 (less than 1 month) it returns an empty table, again
completing normally. -/
theorem negative_units_forecast_emitted :
    forecast_failures_by_cohort cdfStep [⟨some ⟨2024, 1, 15⟩, -5⟩] 1 =
      [⟨some ⟨2024, 1, 15⟩, some (addMonths ⟨2024, 1, 15⟩ 1),
        ((-5 : ℤ) : ℚ) * max (cdfStep 30 - cdfStep 0) 0⟩] ∧
    ((-5 : ℤ) : ℚ) * max (cdfStep 30 - cdfStep 0) 0 < 0 ∧
    addMonths ⟨2024, 1, 15⟩ 1 = ⟨2024, 2, 15⟩ ∧
    forecast_failures_by_cohort cdfStep [⟨some ⟨2024, 1, 15⟩, -5⟩] 0 = [] := by
  refine ⟨rfl, ?_, by decide, rfl⟩
  norm_num [cdfStep, max_def]

/-- Claim C9 (amended): the forecast operation performs no validation and
raises nothing: a horizon below 1 month yields an empty output (the Python
range is empty), and a cohort with a negative unit count yields forecast
records with negative expected_failures rather than an error. -/
theorem forecast_no_validation (cdf : ℕ → ℚ) (sales_df : List SalesRow) (row : SalesRow)
    (hneg : row.quantity_in_service < 0) (hp : cdf 0 < cdf 30) :
    forecast_failures_by_cohort cdf sales_df 0 = [] ∧
    ∃ fr ∈ forecast_failures_by_cohort cdf [row] 1, fr.expected_failures < 0 := by
  constructor
  · unfold forecast_failures_by_cohort
    induction sales_df with
    | nil => rfl
    | cons x xs ih =>
      rw [List.flatMap_cons, ih]
      rfl
  · have hmem : (⟨row.date_in_service, row.date_in_service.map (fun d => addMonths d 1),
        (row.quantity_in_service : ℚ) * max (cdf 30 - cdf 0) 0⟩ : ForecastRow) ∈
        forecast_failures_by_cohort cdf [row] 1 := by
      exact List.mem_cons_self _ _
    refine ⟨_, hmem, ?_⟩
    show (row.quantity_in_service : ℚ) * max (cdf 30 - cdf 0) 0 < 0
    have hcast : (row.quantity_in_service : ℚ) < 0 := by exact_mod_cast hneg
    have hmax : max (cdf 30 - cdf 0) 0 = cdf 30 - cdf 0 := max_eq_left (by linarith)
    rw [hmax]
    exact mul_neg_of_neg_of_pos hcast (by linarith)

/-- Witness for the amended claim C9: a cohort of -7 units under the
concrete step cdf. -/
theorem forecast_no_validation_witness :
    forecast_failures_by_cohort cdfStep [⟨none, -7⟩] 0 = [] ∧
    ∃ fr ∈ forecast_failures_by_cohort cdfStep [⟨none, -7⟩] 1, fr.expected_failures < 0 :=
  forecast_no_validation cdfStep [⟨none, -7⟩] ⟨none, -7⟩ (by decide) (by norm_num [cdfStep])

/-! Claim C10. -/

/-- Censored records depend on the returns table only through the per-cohort
matching totals. -/
theorem censored_congr (sales_data : List SalesRow) (ret1 ret2 : List ReturnRow)
    (h : ∀ srow ∈ sales_data,
      total_returned ret1 srow.date_in_service = total_returned ret2 srow.date_in_service) :
    censored_records sales_data ret1 = censored_records sales_data ret2 := by
  unfold censored_records
  induction sales_data with
  | nil => rfl
  | cons x xs ih =>
    rw [List.flatMap_cons, List.flatMap_cons, h x (List.mem_cons_self x xs),
      ih (fun s hs => h s (List.mem_cons_of_mem x hs))]

/-- Claim C10: a return event whose in_service date matches no sales row
still contributes its quantity_returned observed-failure records to the
builder's output, and leaves every cohort's censored records unchanged: the
censored-count subtraction consumes only returns whose in_service date
equals the cohort's date exactly. -/
theorem unmatched_return_accounting (sales_data : List SalesRow) (returns_data : List ReturnRow)
    (r : ReturnRow)
    (hnomatch : ∀ srow ∈ sales_data, pdEq r.date_in_service srow.date_in_service = false) :
    failure_records (returns_data ++ [r]) =
      failure_records returns_data ++
        List.replicate r.quantity_returned.toNat ⟨r.date_in_service, r.date_of_return, 1⟩ ∧
    censored_records sales_data (returns_data ++ [r]) =
      censored_records sales_data returns_data := by
  constructor
  · unfold failure_records
    rw [List.flatMap_append]
    simp
  · refine censored_congr _ _ _ (fun srow hsrow => ?_)
    unfold total_returned
    rw [List.filter_append]
    simp [List.filter_cons, hnomatch srow hsrow]

/-- Witness for claim C10: a return dated 2021-07-04 matching no sales row
still yields two observed records and changes no censored record. -/
theorem unmatched_return_accounting_witness :
    failure_records ([] ++ [⟨some ⟨2021, 7, 4⟩, some ⟨2021, 8, 1⟩, 2⟩]) =
      failure_records [] ++
        List.replicate (2 : ℤ).toNat ⟨some ⟨2021, 7, 4⟩, some ⟨2021, 8, 1⟩, 1⟩ ∧
    censored_records [⟨some ⟨2020, 1, 1⟩, 3⟩] ([] ++ [⟨some ⟨2021, 7, 4⟩, some ⟨2021, 8, 1⟩, 2⟩]) =
      censored_records [⟨some ⟨2020, 1, 1⟩, 3⟩] [] :=
  unmatched_return_accounting [⟨some ⟨2020, 1, 1⟩, 3⟩] []
    ⟨some ⟨2021, 7, 4⟩, some ⟨2021, 8, 1⟩, 2⟩ (by decide)
